import Mathlib

/-!
Verification development for the `yundera-smtp-handler` repository.

The Go source (`main.go`) implements a small SMTP ingestion server:
an SMTP session collects a sender, recipients and a message body,
parses the body as a MIME message (`parseEmail` / `extractBodyParts`),
and forwards a normalized `EmailRequest` to an HTTP API.

This file gives a shallow embedding of the pure computational core of
that program and proves/refutes the specification claims about it.
External effects (network reads, the go-message parser, the HTTP call)
are modelled as explicit inputs:

* the raw body stream handed to `Data` is a `BodyReader` value carrying
  the bytes the client sends plus an optional underlying read error;
* the result of `message.Read` is an optional parsed `Entity` tree
  (`none` models a parse failure);
* the outcome of the HTTP forward is an optional error string, and the
  delivery attempt itself is reified in the `DataResult` type.

Go strings are modelled as Lean `String`s (bytes are the UTF-8 bytes of
the string; every concrete input used below is ASCII, where the two
notions of length and slicing agree).
-/

/-! ## Modelled Go standard-library helpers -/

/-- `listHasPre pat l` : does `l` start with `pat`?
Models `strings.HasPrefix` on the underlying rune lists. -/
def listHasPre : List Char → List Char → Bool
  | [], _ => true
  | _ :: _, [] => false
  | a :: as, b :: bs => a == b && listHasPre as bs

/-- `strings.HasPrefix s pre`. -/
def strStarts (s pre : String) : Bool := listHasPre pre.toList s.toList

/-- `listOccurs pat l` : does `pat` occur as a contiguous sublist of `l`?
(Models `strings.Contains`; used to state properties about the html output.) -/
def listOccurs (pat : List Char) : List Char → Bool
  | [] => pat.isEmpty
  | c :: rest => listHasPre pat (c :: rest) || listOccurs pat rest

/-- Does the string `pat` occur as a substring of `s`? -/
def strOccurs (pat s : String) : Bool := listOccurs pat.toList s.toList

/-- Characters trimmed by `strings.Trim(s, "<>")`. -/
def isAngle (c : Char) : Bool := c == '<' || c == '>'

/-- `strings.Trim(s, "<>")`: strip leading and trailing `<`/`>` runes. -/
def trimAngles (s : String) : String :=
  String.mk (((s.toList.dropWhile isAngle).reverse.dropWhile isAngle).reverse)

/-- The whitespace class of Go's `unicode.IsSpace`, restricted to the
Latin-1 range ('\t', '\n', '\v', '\f', '\r', ' ', U+0085, U+00A0).
The remaining Unicode space separators are never exercised by the claims. -/
def isGoSpace (c : Char) : Bool :=
  c.toNat == 9 || c.toNat == 10 || c.toNat == 11 || c.toNat == 12 ||
  c.toNat == 13 || c.toNat == 32 || c.toNat == 0x85 || c.toNat == 0xA0

/-- `strings.TrimSpace`. -/
def goTrimSpace (s : String) : String :=
  String.mk (((s.toList.dropWhile isGoSpace).reverse.dropWhile isGoSpace).reverse)

/-- UTF-8 encoding of one character, as the list of its byte values.
Models how a Go `string`'s bytes relate to its runes. -/
def charUTF8 (c : Char) : List Nat :=
  let n := c.toNat
  if n < 0x80 then [n]
  else if n < 0x800 then [0xC0 + n / 64, 0x80 + n % 64]
  else if n < 0x10000 then [0xE0 + n / 4096, 0x80 + n / 64 % 64, 0x80 + n % 64]
  else [0xF0 + n / 262144, 0x80 + n / 4096 % 64, 0x80 + n / 64 % 64, 0x80 + n % 64]

/-- The byte sequence of a Go string (UTF-8 bytes of its runes). -/
def strBytes (s : String) : List Nat :=
  s.toList.foldr (fun c acc => charUTF8 c ++ acc) []

/-- The standard base64 alphabet (`base64.StdEncoding`). -/
def base64Table : List Char :=
  "ABCDEFGHIJKLMNOPQRSTUVWXYZabcdefghijklmnopqrstuvwxyz0123456789+/".toList

/-- Character for a 6-bit value. -/
def b64c (n : Nat) : Char := base64Table.getD n 'A'

/-- Encode a byte list in base64, three bytes at a time, with `=` padding:
models `base64.StdEncoding.EncodeToString`. -/
def b64Groups : List Nat → List Char
  | [] => []
  | [a] => [b64c (a / 4), b64c (a % 4 * 16), '=', '=']
  | [a, b] => [b64c (a / 4), b64c (a % 4 * 16 + b / 16), b64c (b % 16 * 4), '=']
  | a :: b :: c :: rest =>
      b64c (a / 4) :: b64c (a % 4 * 16 + b / 16) ::
      b64c (b % 16 * 4 + c / 64) :: b64c (c % 64) :: b64Groups rest

/-- `base64.StdEncoding.EncodeToString` on the bytes of a Go string. -/
def base64Encode (s : String) : String := String.mk (b64Groups (strBytes s))

/-- One left-to-right, non-overlapping replacement pass over a rune list.
The fuel argument (instantiated with the list length) only makes the
recursion structural; it is never exhausted when `pat` is non-empty. -/
def replChars (pat rep : List Char) : Nat → List Char → List Char
  | _, [] => []
  | 0, l => l
  | fuel + 1, c :: rest =>
      if listHasPre pat (c :: rest) then
        rep ++ replChars pat rep fuel ((c :: rest).drop pat.length)
      else
        c :: replChars pat rep fuel rest

/-- `strings.ReplaceAll(s, pat, rep)`: replace every non-overlapping
occurrence of `pat` in `s`, scanning left to right.  For an empty
pattern Go inserts `rep` before every rune and at the end. -/
def goReplaceAll (s pat rep : String) : String :=
  if pat = "" then
    rep ++ String.join (s.toList.map (fun c => String.singleton c ++ rep))
  else
    String.mk (replChars pat.toList rep.toList s.toList.length s.toList)

/-- `strings.Split(s, "@")[0]`: the prefix of `s` before the first `@`
(the whole of `s` when it has no `@`). -/
def splitAtSignHead (s : String) : String :=
  String.mk (s.toList.takeWhile (fun c => !(c == '@')))

/-- The fragment of Go `strings.ToLower` that matters after the
`[^a-z0-9-]` filter of `sanitizeAppName`: ASCII `A`-`Z` map to `a`-`z`,
and the only other code points whose Unicode simple lowercase mapping
lands inside `[a-z0-9-]` are U+0130 (to `i`) and U+212A (to `k`).
All other characters are left unchanged here; on those the real
`strings.ToLower` may differ, but its output is then discarded by the
filter either way, so the composed pipeline is modelled exactly. -/
def goToLower (c : Char) : Char :=
  if 65 ≤ c.toNat && c.toNat ≤ 90 then Char.ofNat (c.toNat + 32)
  else if c.toNat == 0x130 then 'i'
  else if c.toNat == 0x212A then 'k'
  else c

/-- The character class `[a-z0-9-]` of the regexp in `sanitizeAppName`. -/
def isAppChar (c : Char) : Bool :=
  (97 ≤ c.toNat && c.toNat ≤ 122) || (48 ≤ c.toNat && c.toNat ≤ 57) || c.toNat == 45

/-! ## The source program -/

/-- `MaxEmailSize = 10 * 1024 * 1024` (10MB). -/
def MaxEmailSize : Nat := 10 * 1024 * 1024

/-- The JSON request forwarded to the Yundera email API
(struct `EmailRequest` in the source). -/
/- The Go field `To` is renamed `toAddr` (`to` is a Lean keyword). -/
structure EmailRequest where
  toAddr : String
  subject : String
  text : String
  html : String
  appName : String
deriving DecidableEq, Repr

/-- `sanitizeAppName`: lowercase, strip characters outside `[a-z0-9-]`,
truncate to 20 (after the filter every rune is ASCII, so Go's byte-based
`len`/slicing coincide with character counts), default to `"app"` when
empty. -/
def sanitizeAppName (name : String) : String :=
  let lowered := String.mk (name.toList.map goToLower)
  let stripped := String.mk (lowered.toList.filter isAppChar)
  let truncated :=
    if stripped.length > 20 then String.mk (stripped.toList.take 20) else stripped
  if truncated = "" then "app" else truncated

/-- A parsed MIME entity as produced by `go-message`'s `message.Read`.

* `leaf ct cid cdisp body`: an entity whose body is raw bytes.
  `ct = none` models `Header.ContentType()` returning an error
  (absent or malformed Content-Type); `ct = some mt` is the parsed,
  lowercased media type.  A leaf whose media type starts with
  `multipart/` models the case where `MultipartReader()` returns `nil`
  (e.g. a multipart content-type without usable parts).
* `multi subtype cid cdisp children`: an entity with media type
  `"multipart/" ++ subtype` whose `MultipartReader` yields `children`
  in document order.  (In `go-message` an entity has child parts
  exactly when its media type has the `multipart/` prefix, so the
  constructor stores only the subtype.)

`cid` and `cdisp` are the raw `Content-Id` / `Content-Disposition`
header values (`""` when absent), read by the enclosing multipart loop. -/
inductive Entity : Type where
  | leaf (ct : Option String) (cid cdisp : String) (body : String) : Entity
  | multi (subtype : String) (cid cdisp : String) (children : List Entity) : Entity

/-- `part.Header.ContentType()`'s media type with the error ignored:
the Go loop uses `partMediaType, _, _ := part.Header.ContentType()`,
so an error leaves the zero value `""`. -/
def partMediaType : Entity → String
  | .leaf ct _ _ _ => ct.getD ""
  | .multi subtype _ _ _ => "multipart/" ++ subtype

/-- `part.Header.Get("Content-Id")`. -/
def partContentId : Entity → String
  | .leaf _ cid _ _ => cid
  | .multi _ cid _ _ => cid

/-- `part.Header.Get("Content-Disposition")`. -/
def partDisposition : Entity → String
  | .leaf _ _ cdisp _ => cdisp
  | .multi _ _ cdisp _ => cdisp

/-- `io.ReadAll(part.Body)` for a leaf part.  A `multi` entity never
reaches the one call site (the inline-image branch), because its media
type starts with `multipart/`, not `image/`; it is given `""` there. -/
def partBody : Entity → String
  | .leaf _ _ _ body => body
  | .multi _ _ _ _ => ""

/-- `inlineImages[contentID] = dataURI`: Go map insertion (overwrites an
existing key, otherwise appends).  The association list keeps insertion
order; Go's map iteration order is unspecified, and no claim below
depends on the order chosen here. -/
def mapInsert (m : List (String × String)) (k v : String) : List (String × String) :=
  if m.any (fun p => p.1 == k) then m.map (fun p => if p.1 == k then (k, v) else p)
  else m ++ [(k, v)]

/-- `fmt.Sprintf("data:%s;base64,%s", partMediaType, base64.StdEncoding.EncodeToString(body))`. -/
def dataURI (mediaType body : String) : String :=
  "data:" ++ mediaType ++ ";base64," ++ base64Encode body

/-- The rewrite loop `for contentID, dataURI := range inlineImages
{ html = strings.ReplaceAll(html, "cid:"+contentID, dataURI) }`. -/
def rewriteImgs (html : String) (imgs : List (String × String)) : String :=
  imgs.foldl (fun h kv => goReplaceAll h ("cid:" ++ kv.1) kv.2) html

/-- Lines 308-312 of the source: at the end of `extractBodyParts`,
`if html != "" && len(inlineImages) > 0` rewrite the accumulated html
with this call's inline image map. -/
def finishRewrite (r : String × String) (imgs : List (String × String)) : String × String :=
  if r.2 != "" && !imgs.isEmpty then (r.1, rewriteImgs r.2 imgs) else r

mutual

/-- `extractBodyParts(entity)`: recursively extract `(text, html)`.

* Content-Type error: return the raw body as text (early return,
  before the rewrite block).
* `multipart/*` media type on a leaf: `MultipartReader()` is `nil`,
  early `return "", ""`.
* `multipart/*` with children: run the part loop (`extractParts`)
  with empty accumulators and a fresh, call-local `inlineImages` map,
  then apply the end-of-function rewrite block.
* `text/plain` / `text/html` / anything else: body as text, body as
  html, body as text respectively (the `charset` variable computed in
  the final else branch of the source is never used), followed by the
  (vacuous, since the map is empty) rewrite block. -/
def extractBodyParts : Entity → String × String
  | .leaf none _ _ body => (body, "")
  | .leaf (some ct) _ _ body =>
      if strStarts ct "multipart/" then ("", "")
      else if ct == "text/plain" then finishRewrite (body, "") []
      else if ct == "text/html" then finishRewrite ("", body) []
      else finishRewrite (body, "") []
  | .multi _ _ _ children =>
      let acc := extractParts children ("", "", [])
      finishRewrite (acc.1, acc.2.1) acc.2.2

/-- The `for { part, err := mr.NextPart() ... }` loop of
`extractBodyParts`, carrying the accumulators `(text, html, inlineImages)`:

* a part whose media type starts with `image/` and whose `Content-Id`
  is non-empty is stored in the inline image map (key: content-id with
  surrounding angle brackets trimmed, value: base64 data URI) — this
  branch is checked **before** the attachment check;
* otherwise, unless its `Content-Disposition` starts with
  `"attachment"`, recurse: adopt the recursive text only if the
  accumulated text is still empty, overwrite the accumulated html
  whenever the recursive html is non-empty;
* otherwise skip the part. -/
def extractParts :
    List Entity → String × String × List (String × String) →
    String × String × List (String × String)
  | [], acc => acc
  | part :: rest, (text, html, imgs) =>
      if strStarts (partMediaType part) "image/" && partContentId part != "" then
        extractParts rest
          (text, html,
           mapInsert imgs (trimAngles (partContentId part))
             (dataURI (partMediaType part) (partBody part)))
      else if partDisposition part == "" || !strStarts (partDisposition part) "attachment" then
        let r := extractBodyParts part
        extractParts rest
          (if r.1 != "" && text == "" then r.1 else text,
           if r.2 != "" then r.2 else html,
           imgs)
      else
        extractParts rest (text, html, imgs)

end

/-- `parseEmail(data)`: the second argument models the outcome of
`message.Read` on `data` — `none` is a parse error (degrade to the whole
raw input as text with the default subject, untrimmed early return);
`some (entity, subjectHeader)` provides the parsed entity tree and the
value of `Header.Get("Subject")`.  On success the subject defaults to
`"No Subject"` when the header is empty/absent, the body parts are
extracted, an empty text falls back to the html, and text and html are
trimmed. -/
def parseEmail (data : String) (parsed : Option (Entity × String)) :
    String × String × String :=
  match parsed with
  | none => ("No Subject", data, "")
  | some (entity, subjectHeader) =>
      let subject := if subjectHeader != "" then subjectHeader else "No Subject"
      let r := extractBodyParts entity
      let text := if r.1 == "" && r.2 != "" then r.2 else r.1
      (subject, goTrimSpace text, goTrimSpace r.2)

/-- Per-connection SMTP session state (struct `SMTPSession`).
The Go fields `from` and `to` are renamed `fromAddr` and `rcptTo`
(`from` and `to` are Lean keywords). -/
structure SMTPSession where
  appName : String
  fromAddr : String
  rcptTo : List String
  authUser : String
deriving DecidableEq, Repr

/-- A fresh session (`NewSession`). -/
def newSession : SMTPSession := ⟨"", "", [], ""⟩

/-- The SASL callback in `Auth`: accept any credentials, remember the
username and the sanitized app name. -/
def SMTPSession.Auth (s : SMTPSession) (username : String) : SMTPSession :=
  { s with authUser := username, appName := sanitizeAppName username }

/-- `Mail`: record the envelope sender. -/
def SMTPSession.Mail (s : SMTPSession) (from_ : String) : SMTPSession :=
  { s with fromAddr := from_ }

/-- `Rcpt`: append a recipient. -/
def SMTPSession.Rcpt (s : SMTPSession) (to_ : String) : SMTPSession :=
  { s with rcptTo := s.rcptTo ++ [to_] }

/-- `Reset`: clear the envelope sender and recipients (the authenticated
app name and user survive for the connection's lifetime). -/
def SMTPSession.Reset (s : SMTPSession) : SMTPSession :=
  { s with fromAddr := "", rcptTo := [] }

/-- The `io.Reader` handed to `Data`: the bytes the client sends, plus
an optional error of the underlying read (occurring within the first
`MaxEmailSize` bytes). -/
structure BodyReader where
  bytes : String
  readErr : Option String

/-- `io.ReadAll(io.LimitReader(r, MaxEmailSize))`: a stream longer than
`MaxEmailSize` is silently truncated to its first `MaxEmailSize` bytes
with **no error**; the read fails exactly when the underlying reader
fails. -/
def readLimited (r : BodyReader) : Except String String :=
  match r.readErr with
  | some e => Except.error e
  | none => Except.ok (String.mk (r.bytes.toList.take MaxEmailSize))

/-- The observable outcome of one `Data` call:
`rejected err` — `Data` returned the error `err` before calling
`forwardToAPI` (no delivery attempt);
`attempted req apiErr` — `forwardToAPI` was invoked with `req`
(exactly one delivery attempt); `Data` then returns `apiErr` (an
error from the HTTP call) or success. -/
inductive DataResult where
  | rejected (err : String)
  | attempted (req : EmailRequest) (apiErr : Option String)
deriving DecidableEq, Repr

/-- `Data`: read the body through the 10MB `LimitReader` (propagating a
read error), parse the email, require at least one recipient and take
the **first** one, derive the app name (authenticated name, else
sanitized local part of the envelope sender, else `"app"`), and forward
the request.  `parsed` models `message.Read`'s outcome on the read
data, `apiErr` the HTTP call's outcome. -/
def SMTPSession.Data (s : SMTPSession) (r : BodyReader)
    (parsed : Option (Entity × String)) (apiErr : Option String) : DataResult :=
  match readLimited r with
  | Except.error e => DataResult.rejected e
  | Except.ok data =>
    let pe := parseEmail data parsed
    match s.rcptTo with
    | [] => DataResult.rejected "no recipients specified"
    | recipient :: _ =>
      let appName :=
        if s.appName != "" then s.appName
        else if s.fromAddr != "" then sanitizeAppName (splitAtSignHead s.fromAddr)
        else ""
      let appName := if appName == "" then "app" else appName
      DataResult.attempted ⟨recipient, pe.1, pe.2.1, pe.2.2, appName⟩ apiErr

/-! ## General helper lemmas -/

/-- Rebuilding a string from its rune list is the identity. -/
theorem strMk_toList (s : String) : String.mk s.toList = s := rfl

/-- Characters of the class `[a-z0-9-]` are fixed points of the
(modelled) Go lowercasing. -/
theorem isAppChar_goToLower_fix (c : Char) (h : isAppChar c = true) : goToLower c = c := by
  simp only [isAppChar, Bool.or_eq_true, Bool.and_eq_true, decide_eq_true_eq,
    beq_iff_eq] at h
  unfold goToLower
  split
  · rename_i hc
    simp only [Bool.and_eq_true, decide_eq_true_eq] at hc
    omega
  split
  · rename_i hc
    simp only [beq_iff_eq] at hc
    omega
  split
  · rename_i hc
    simp only [beq_iff_eq] at hc
    omega
  rfl

/-- `sanitizeAppName` written as one list pipeline (lets unfolded,
string/list conversions normalised). -/
theorem sanitize_shape (s : String) :
    sanitizeAppName s = (let l := (s.toList.map goToLower).filter isAppChar;
      if l.length > 20 then (if (String.mk (l.take 20)) = "" then "app" else String.mk (l.take 20))
      else (if String.mk l = "" then "app" else String.mk l)) := by
  simp only [sanitizeAppName, String.toList]
  by_cases hlen : (List.filter isAppChar (List.map goToLower s.data)).length > 20 <;>
    simp [hlen, String.length]

/-- Every character of a sanitized app name lies in `[a-z0-9-]`. -/
theorem sanitize_all (s : String) :
    (sanitizeAppName s).toList.all isAppChar = true := by
  rw [sanitize_shape]
  simp only []
  by_cases hlen : ((s.toList.map goToLower).filter isAppChar).length > 20 <;>
    simp only [hlen, if_true, if_false, ite_true, ite_false] <;>
    split <;> rename_i hne
  · decide
  · rw [String.toList, List.all_eq_true]
    intro x hx
    exact List.of_mem_filter (List.take_subset 20 _ hx)
  · decide
  · rw [String.toList, List.all_eq_true]
    intro x hx
    exact List.of_mem_filter hx

/-- A sanitized app name has at most 20 characters. -/
theorem sanitize_len (s : String) : (sanitizeAppName s).length ≤ 20 := by
  rw [sanitize_shape]
  simp only []
  by_cases hlen : ((s.toList.map goToLower).filter isAppChar).length > 20 <;>
    simp only [hlen, if_true, if_false, ite_true, ite_false] <;>
    split <;> rename_i hne
  · decide
  · show (List.take 20 _).length ≤ 20
    rw [List.length_take]
    exact Nat.min_le_left _ _
  · decide
  · show (List.filter _ _).length ≤ 20
    omega

/-- A sanitized app name is never empty. -/
theorem sanitize_ne (s : String) : sanitizeAppName s ≠ "" := by
  rw [sanitize_shape]
  simp only []
  by_cases hlen : ((s.toList.map goToLower).filter isAppChar).length > 20 <;>
    simp only [hlen, if_true, if_false, ite_true, ite_false] <;>
    split <;> rename_i hne
  · decide
  · exact hne
  · decide
  · exact hne

/-- Strings that already satisfy the output invariants of
`sanitizeAppName` are fixed points of it. -/
theorem sanitize_fixed (r : String) (h1 : r ≠ "")
    (h2 : r.toList.all isAppChar = true) (h3 : r.length ≤ 20) :
    sanitizeAppName r = r := by
  rw [List.all_eq_true] at h2
  have hmap : r.toList.map goToLower = r.toList := by
    rw [show r.toList = r.toList.map id from (List.map_id _).symm, List.map_map]
    exact List.map_congr_left (fun a ha => by
      simp only [Function.comp, id_eq]
      exact isAppChar_goToLower_fix a (h2 a (by simpa using ha)))
  have hfil : r.toList.filter isAppChar = r.toList := List.filter_eq_self.mpr h2
  rw [sanitize_shape]
  simp only [hmap, hfil, strMk_toList]
  have hgt : ¬ (r.toList.length > 20) := by
    have : r.toList.length = r.length := rfl
    omega
  rw [if_neg hgt, if_neg h1]

/-- The rewrite step at the end of `extractBodyParts` never changes the
text component. -/
theorem finishRewrite_fst (r : String × String) (imgs : List (String × String)) :
    (finishRewrite r imgs).1 = r.1 := by
  unfold finishRewrite
  split <;> rfl

/-- Taking `n` elements of `n+1` copies leaves `n` copies. -/
theorem take_succ_replicate (n : Nat) (a : Char) :
    (List.replicate (n + 1) a).take n = List.replicate n a := by
  induction n with
  | zero => rfl
  | succ m ih => rw [List.replicate_succ, List.take_succ_cons, ih]; rfl

/-- First non-empty string of a list (`""` when there is none). -/
def firstNE : List String → String
  | [] => ""
  | x :: xs => if x != "" then x else firstNE xs

/-- Last non-empty string of a list (`""` when there is none). -/
def lastNE : List String → String
  | [] => ""
  | x :: xs => if lastNE xs != "" then lastNE xs else x

/-- A part handled by the **default rule** of the multipart loop:
not an inline image (media type `image/*` with a content-id) and not an
attachment (content-disposition starting with `"attachment"`). -/
def isDefaultPart (p : Entity) : Bool :=
  !(strStarts (partMediaType p) "image/" && partContentId p != "") &&
  (partDisposition p == "" || !strStarts (partDisposition p) "attachment")

/-- Accumulator characterisation of the multipart loop over parts that
all take the default rule: the text accumulator keeps its value unless
it is empty, in which case it becomes the first non-empty recursive
text; the html accumulator is overwritten by the last non-empty
recursive html; the image map is untouched. -/
theorem extractParts_default (children : List Entity) (t h : String)
    (imgs : List (String × String))
    (H : ∀ p ∈ children, isDefaultPart p = true) :
    extractParts children (t, h, imgs) =
      ((if t != "" then t else firstNE (children.map (fun p => (extractBodyParts p).1))),
       (if lastNE (children.map (fun p => (extractBodyParts p).2)) != ""
        then lastNE (children.map (fun p => (extractBodyParts p).2)) else h),
       imgs) := by
  induction children generalizing t h with
  | nil =>
    rw [extractParts]
    by_cases ht : t = "" <;>
      by_cases hh : h = "" <;> simp [ht, hh, firstNE, lastNE, bne_iff_ne]
  | cons p rest ih =>
    have hp := H p (List.mem_cons_self p rest)
    have hrest : ∀ q ∈ rest, isDefaultPart q = true := fun q hq => H q (List.mem_cons_of_mem p hq)
    rw [extractParts]
    simp only [isDefaultPart, Bool.and_eq_true, Bool.not_eq_true'] at hp
    rw [if_neg (by simp [hp.1]), if_pos (by simpa using hp.2)]
    rw [ih _ _ hrest]
    simp only [List.map_cons, firstNE, lastNE, Prod.mk.injEq]
    refine ⟨?_, ?_, trivial⟩
    · by_cases ht : t = "" <;> by_cases hx : (extractBodyParts p).1 = "" <;>
        simp [ht, hx, bne_iff_ne, beq_iff_eq]
    · by_cases hy : (extractBodyParts p).2 = "" <;>
        by_cases hl : lastNE (rest.map (fun q => (extractBodyParts q).2)) = "" <;>
        simp [hy, hl, bne_iff_ne, beq_iff_eq]

/-! ## Concrete message material used by the claims -/

/-- An image part with a content-id that is explicitly marked as an
attachment (`Content-Disposition: attachment; ...`). -/
def attImg : Entity :=
  Entity.leaf (some "image/png") "<i1>" "attachment; filename=\"x.png\"" "PNG"

/-- An HTML part referencing the attachment image by `cid:i1`. -/
def htmlRefI1 : Entity := Entity.leaf (some "text/html") "" "" "<img src=\"cid:i1\">"

/-- A multipart message containing the attachment image and the
referencing HTML part. -/
def c1msg : Entity := Entity.multi "mixed" "" "" [attImg, htmlRefI1]

/-- An inline (non-attachment) image part with content-id `i`. -/
def imgI : Entity := Entity.leaf (some "image/png") "<i>" "" "PNG"

/-- A message whose inline image sits in a **nested** multipart while
the HTML referencing it by `cid:i` sits at the **top** level. -/
def c2msg : Entity :=
  Entity.multi "mixed" "" ""
    [Entity.multi "related" "" "" [imgI], Entity.leaf (some "text/html") "" "" "see cid:i"]

/-- An inline image part with content-id `img1`. -/
def img1Part : Entity := Entity.leaf (some "image/png") "<img1>" "" "PNG"

/-- An HTML part referencing `cid:img1`. -/
def htmlRefImg1 : Entity := Entity.leaf (some "text/html") "" "" "<img src=\"cid:img1\">"

/-- A multipart message with one inline image and the HTML part that
references it as siblings of the same multipart (the concrete instance
named by the specification). -/
def relMsg : Entity := Entity.multi "related" "" "" [img1Part, htmlRefImg1]

/-- An HTML part referencing `cid:i`. -/
def htmlRefI : Entity := Entity.leaf (some "text/html") "" "" "<img src=\"cid:i\">"

/-- A nested multipart containing both the referencing HTML and the
inline image. -/
def c3inner : Entity := Entity.multi "related" "" "" [htmlRefI, imgI]

/-- A top-level multipart whose only child is the nested multipart
`c3inner`; all image/html activity happens one level down. -/
def c3msg : Entity := Entity.multi "mixed" "" "" [c3inner]

/-- A multipart message with two `text/plain` parts. -/
def twoTextMsg : Entity :=
  Entity.multi "alternative" "" ""
    [Entity.leaf (some "text/plain") "" "" "Hello",
     Entity.leaf (some "text/plain") "" "" "World"]

/-! ## C1 -/

/-- C1 counterexample: the claim "a part whose Content-Disposition
starts with `attachment` contributes nothing to text, html, or the
inline image map, even when its media type is `image/*` with a
Content-Id" is false.  The source checks the inline-image condition
**before** the attachment condition, so the attachment image `attImg`
is stored in the inline image map, and through the rewrite its bytes
end up inside the extracted html of `c1msg`. -/
theorem c1_counterexample :
    (extractParts [attImg] ("", "", [])).2.2 = [("i1", "data:image/png;base64,UE5H")] ∧
    extractBodyParts c1msg = ("", "<img src=\"data:image/png;base64,UE5H\">") := by
  constructor
  · simp +decide [extractParts, attImg]
  · simp +decide [c1msg, attImg, htmlRefI1, extractBodyParts, extractParts]

/-- C1 (amended): a part whose Content-Disposition starts with
`"attachment"` never changes the text and html accumulators of the
multipart loop; it is skipped entirely **unless** its media type starts
with `image/` and it carries a non-empty Content-Id, in which case it
is still inserted into the inline image map (only the map changes). -/
theorem c1_attachment_contribution (p : Entity) (rest : List Entity) (t h : String)
    (imgs : List (String × String))
    (hatt : strStarts (partDisposition p) "attachment" = true) :
    ((strStarts (partMediaType p) "image/" && partContentId p != "") = false →
      extractParts (p :: rest) (t, h, imgs) = extractParts rest (t, h, imgs)) ∧
    ((strStarts (partMediaType p) "image/" && partContentId p != "") = true →
      extractParts (p :: rest) (t, h, imgs) =
        extractParts rest (t, h, mapInsert imgs (trimAngles (partContentId p))
          (dataURI (partMediaType p) (partBody p)))) := by
  have hne : (partDisposition p == "") = false := by
    cases hq : partDisposition p == ""
    · rfl
    · exfalso
      rw [beq_iff_eq] at hq
      rw [hq] at hatt
      exact absurd hatt (by decide)
  constructor
  · intro him
    rw [extractParts, if_neg (by simp [him]), if_neg (by simp [hne, hatt])]
  · intro him
    rw [extractParts, if_pos him]

/-- C1 witness: the amended statement applied to the attachment image
part, discharging both hypotheses by computation. -/
theorem c1_attachment_contribution_witness :
    extractParts [attImg] ("", "", []) =
      extractParts [] ("", "",
        mapInsert [] (trimAngles (partContentId attImg))
          (dataURI (partMediaType attImg) (partBody attImg))) :=
  (c1_attachment_contribution attImg [] "" "" [] (by decide)).2 (by decide)

/-! ## C2 -/

/-- C2 counterexample: the invariant "the produced html contains no
remaining `cid:<content-id>` for any content-id collected into the
inline image map during the traversal" is false.  In `c2msg` the image
with content-id `i` **is** collected (into the nested call's map), but
that nested call returns empty html, its map is discarded, and the
top-level html keeps the literal `cid:i`. -/
theorem c2_counterexample :
    (extractParts [imgI] ("", "", [])).2.2 = [("i", "data:image/png;base64,UE5H")] ∧
    extractBodyParts c2msg = ("", "see cid:i") ∧
    (parseEmail "raw" (some (c2msg, "S"))).2.2 = "see cid:i" ∧
    strOccurs "cid:i" "see cid:i" = true := by
  refine ⟨?_, ?_, ?_, by decide⟩
  · simp +decide [extractParts, imgI]
  · simp +decide [c2msg, imgI, extractBodyParts, extractParts]
  · simp +decide [parseEmail, c2msg, imgI, extractBodyParts, extractParts, goTrimSpace]

/-- C2 (amended): the substitution invariant holds for content-ids
collected by the **same** recursive call that accumulated the html.
For the specification's concrete instance — one inline image with
content-id `img1` and the HTML part referencing it as `cid:img1`,
children of the same multipart — the final html (both of the extractor
and of the normalized message) contains no literal `cid:img1` and
contains a data-URI beginning with `data:image/png;base64,`. -/
theorem c2_same_level_inline_rewrite :
    extractBodyParts relMsg = ("", "<img src=\"data:image/png;base64,UE5H\">") ∧
    (parseEmail "raw" (some (relMsg, "S"))).2.2 =
      "<img src=\"data:image/png;base64,UE5H\">" ∧
    strOccurs "cid:img1" "<img src=\"data:image/png;base64,UE5H\">" = false ∧
    strOccurs "data:image/png;base64," "<img src=\"data:image/png;base64,UE5H\">" = true := by
  refine ⟨?_, ?_, by decide, by decide⟩
  · simp +decide [relMsg, img1Part, htmlRefImg1, extractBodyParts, extractParts]
  · simp +decide [parseEmail, relMsg, img1Part, htmlRefImg1, extractBodyParts, extractParts,
      goTrimSpace]

/-! ## C3 -/

/-- C3 counterexample: the claim "the reference rewriter is invoked
only after the full traversal, at the top level only, and never
mid-recursion" is false.  In `c3msg` the top-level call collects an
**empty** image map, yet the returned html has already been rewritten —
the substitution was performed by the nested call on `c3inner`
mid-recursion; under the claim, the literal `cid:i` would have
survived. -/
theorem c3_counterexample :
    (extractParts [c3inner] ("", "", [])).2.2 = [] ∧
    extractBodyParts c3msg = ("", "<img src=\"data:image/png;base64,UE5H\">") ∧
    strOccurs "cid:i" "<img src=\"data:image/png;base64,UE5H\">" = false := by
  refine ⟨?_, ?_, by decide⟩
  · simp +decide [extractParts, extractBodyParts, c3inner, htmlRefI, imgI]
  · simp +decide [c3msg, c3inner, htmlRefI, imgI, extractBodyParts, extractParts]

/-- C3 (amended): the reference rewriter runs at the end of **every**
recursive call on a multipart entity — top-level or nested — applied to
that call's accumulated html with that call's own inline image map,
exactly when both are non-empty. -/
theorem c3_rewrite_every_level (sub cid cdisp : String) (children : List Entity) :
    extractBodyParts (Entity.multi sub cid cdisp children) =
      ((extractParts children ("", "", [])).1,
       if (extractParts children ("", "", [])).2.1 ≠ "" ∧
          (extractParts children ("", "", [])).2.2 ≠ []
       then rewriteImgs (extractParts children ("", "", [])).2.1
              (extractParts children ("", "", [])).2.2
       else (extractParts children ("", "", [])).2.1) := by
  rw [extractBodyParts]
  simp only [finishRewrite, bne_iff_ne, ne_eq, Bool.and_eq_true, Bool.not_eq_true',
    List.isEmpty_eq_false_iff_exists_mem]
  by_cases h1 : (extractParts children ("", "", [])).2.1 = "" <;>
    by_cases h2 : (extractParts children ("", "", [])).2.2 = [] <;>
    · simp [h1, h2, List.isEmpty_iff]
      try rfl

/-! ## C4 -/

/-- C4: over children that all take the default rule, the accumulated
text is the **first** non-empty recursive text in document order and
the accumulated html is the **last** non-empty recursive html; in
particular a multipart message with two `text/plain` parts normalizes
to the first part's content. -/
theorem c4_first_text_last_html :
    (∀ children : List Entity, (∀ p ∈ children, isDefaultPart p = true) →
      extractParts children ("", "", []) =
        (firstNE (children.map (fun p => (extractBodyParts p).1)),
         lastNE (children.map (fun p => (extractBodyParts p).2)),
         [])) ∧
    (extractBodyParts twoTextMsg = ("Hello", "") ∧
     (parseEmail "raw" (some (twoTextMsg, "Hi"))).2.1 = "Hello") := by
  refine ⟨?_, ?_, ?_⟩
  · intro children H
    rw [extractParts_default children "" "" [] H]
    by_cases hl : lastNE (children.map (fun p => (extractBodyParts p).2)) = "" <;>
      simp [hl]
  · simp +decide [twoTextMsg, extractBodyParts, extractParts]
  · simp +decide [parseEmail, twoTextMsg, extractBodyParts, extractParts, goTrimSpace]

/-- C4 witness: the general statement applied to the two `text/plain`
children, discharging the default-rule hypothesis by computation. -/
theorem c4_first_text_last_html_witness :
    extractParts [Entity.leaf (some "text/plain") "" "" "Hello",
                  Entity.leaf (some "text/plain") "" "" "World"] ("", "", []) =
      (firstNE ([Entity.leaf (some "text/plain") "" "" "Hello",
                 Entity.leaf (some "text/plain") "" "" "World"].map
                  (fun p => (extractBodyParts p).1)),
       lastNE ([Entity.leaf (some "text/plain") "" "" "Hello",
                Entity.leaf (some "text/plain") "" "" "World"].map
                 (fun p => (extractBodyParts p).2)),
       []) :=
  c4_first_text_last_html.1 _ (by decide)

/-! ## C5 -/

/-- A session that has already accepted one recipient. -/
def oversizedSession : SMTPSession :=
  { appName := "", fromAddr := "sender@apphost", rcptTo := ["user@example.com"], authUser := "" }

/-- A body stream of `MaxEmailSize + 1` bytes whose underlying reads
all succeed. -/
def oversizedReader : BodyReader :=
  { bytes := String.mk (List.replicate (MaxEmailSize + 1) 'a'), readErr := none }

/-- C5: evaluating `Data` at the failing input.  The claim says an
oversized body makes the transaction fail with no delivery attempt,
but `io.ReadAll(io.LimitReader(r, MaxEmailSize))` reports **no error**
on truncation: the body is silently cut to its first `MaxEmailSize`
bytes and a delivery attempt is made with the truncated text
(`DataResult.attempted`, not `DataResult.rejected`). -/
theorem c5_oversized_truncated_delivery :
    SMTPSession.Data oversizedSession oversizedReader none none =
      DataResult.attempted
        ⟨"user@example.com", "No Subject",
         String.mk (List.replicate MaxEmailSize 'a'), "", "sender"⟩
        none := by
  have hread : readLimited oversizedReader =
      Except.ok (String.mk (List.replicate MaxEmailSize 'a')) := by
    simp only [readLimited, oversizedReader]
    rw [show (String.mk (List.replicate (MaxEmailSize + 1) 'a')).toList
          = List.replicate (MaxEmailSize + 1) 'a' from rfl,
        take_succ_replicate]
  simp only [SMTPSession.Data, hread, oversizedSession, parseEmail]
  norm_num
  decide

/-! ## C6 -/

/-- C6: when the MIME structure fails to parse, `parseEmail` degrades
gracefully — the whole raw input becomes the text field, the html is
empty, and the subject is the sentinel `"No Subject"`; the same
sentinel is produced whenever the Subject header is absent or empty in
a successfully parsed message. -/
theorem c6_parse_failure_defaults :
    (∀ data : String, parseEmail data none = ("No Subject", data, "")) ∧
    (∀ (data : String) (e : Entity), (parseEmail data (some (e, ""))).1 = "No Subject") := by
  constructor
  · intro data
    rfl
  · intro data e
    simp [parseEmail]

/-! ## C7 -/

/-- C7: the text-from-html promotion happens exactly once, at the top
level of `parseEmail`: whenever the extractor returns empty text and
non-empty html, the normalized text equals the normalized html; the
recursion itself never promotes (the text component of a multipart node
is exactly the loop's text accumulator); and a message with only
`text/html` content yields html populated and text equal to it. -/
theorem c7_text_html_promotion_top_level :
    (∀ (d subj : String) (e : Entity), (extractBodyParts e).1 = "" →
      (extractBodyParts e).2 ≠ "" →
      (parseEmail d (some (e, subj))).2.1 = (parseEmail d (some (e, subj))).2.2) ∧
    (∀ (sub cid cdisp : String) (children : List Entity),
      (extractParts children ("", "", [])).1 = "" →
      (extractBodyParts (Entity.multi sub cid cdisp children)).1 = "") ∧
    (extractBodyParts (Entity.leaf (some "text/html") "" "" "<p>Hi</p>") = ("", "<p>Hi</p>") ∧
     parseEmail "raw" (some (Entity.leaf (some "text/html") "" "" "<p>Hi</p>", "S")) =
       ("S", "<p>Hi</p>", "<p>Hi</p>")) := by
  refine ⟨?_, ?_, ?_, ?_⟩
  · intro d subj e h1 h2
    simp [parseEmail, h1, h2]
  · intro sub cid cdisp children h
    rw [extractBodyParts]
    rw [finishRewrite_fst]
    exact h
  · simp +decide [extractBodyParts]
  · simp +decide [parseEmail, extractBodyParts, goTrimSpace]

/-- C7 witness: the promotion equality applied to the html-only leaf,
hypotheses discharged by computing the extractor on it. -/
theorem c7_text_html_promotion_top_level_witness :
    (parseEmail "raw" (some (Entity.leaf (some "text/html") "" "" "<b>x</b>", "S"))).2.1 =
      (parseEmail "raw" (some (Entity.leaf (some "text/html") "" "" "<b>x</b>", "S"))).2.2 :=
  c7_text_html_promotion_top_level.1 "raw" "S" _
    (by simp +decide [extractBodyParts])
    (by simp +decide [extractBodyParts])

/-! ## C8 -/

/-- C8: `sanitizeAppName` lowercases its input, strips every character
outside `[a-z0-9-]`, truncates to 20 characters and falls back to
`"app"` on an empty result (stated as one pipeline in the last
conjunct, where the unconditional `take 20` coincides with the
source's guarded truncation); concretely `"MyApp_123!"` sanitizes to
`"myapp123"`, and an empty or all-disallowed input yields `"app"`. -/
theorem c8_sanitize_pipeline :
    sanitizeAppName "MyApp_123!" = "myapp123" ∧
    sanitizeAppName "" = "app" ∧
    (∀ s : String, (s.toList.all (fun c => !isAppChar (goToLower c))) = true →
      sanitizeAppName s = "app") ∧
    (∀ s : String, sanitizeAppName s =
      (let l := ((s.toList.map goToLower).filter isAppChar).take 20;
       if String.mk l = "" then "app" else String.mk l)) := by
  refine ⟨by decide, by decide, ?_, ?_⟩
  · intro s hall
    rw [List.all_eq_true] at hall
    have hfil : List.filter isAppChar (List.map goToLower s.data) = [] := by
      rw [List.filter_eq_nil_iff]
      intro a ha
      rw [List.mem_map] at ha
      obtain ⟨c, hc, rfl⟩ := ha
      have := hall c hc
      simpa using this
    rw [sanitize_shape]
    simp [String.toList, hfil]
  · intro s
    rw [sanitize_shape]
    simp only [String.toList]
    generalize List.filter isAppChar (List.map goToLower s.data) = F
    by_cases hlen : F.length > 20
    · simp [hlen]
    · rw [List.take_of_length_le (by omega)]
      simp [hlen]

/-- C8 witness: the all-disallowed clause applied at `"_!@"` (every
character lowercases outside `[a-z0-9-]`), hypothesis by computation. -/
theorem c8_sanitize_pipeline_witness : sanitizeAppName "_!@" = "app" :=
  c8_sanitize_pipeline.2.2.1 "_!@" (by decide)

/-! ## C9 -/

/-- C9: `Data` succeeds only with a non-empty recipient list — with no
recipients (and a successful read) it rejects with
`"no recipients specified"` and attempts no delivery — and every
delivery attempt targets exactly the first recipient recorded by
`Rcpt`, however many recipients were accepted. -/
theorem c9_first_recipient_only (s : SMTPSession) (r : BodyReader)
    (parsed : Option (Entity × String)) (apiErr : Option String) :
    (r.readErr = none → s.rcptTo = [] →
      SMTPSession.Data s r parsed apiErr = DataResult.rejected "no recipients specified") ∧
    (∀ req ae, SMTPSession.Data s r parsed apiErr = DataResult.attempted req ae →
      s.rcptTo ≠ [] ∧ req.toAddr = s.rcptTo.headD "") := by
  constructor
  · intro hre hto
    simp [SMTPSession.Data, readLimited, hre, hto]
  · intro req ae hd
    simp only [SMTPSession.Data, readLimited] at hd
    cases hre : r.readErr with
    | some e => rw [hre] at hd; simp at hd
    | none =>
      rw [hre] at hd
      simp only [] at hd
      cases hto : s.rcptTo with
      | nil => rw [hto] at hd; simp at hd
      | cons a l =>
        rw [hto] at hd
        simp only [DataResult.attempted.injEq] at hd
        refine ⟨by simp, ?_⟩
        rw [← hd.1]
        rfl

/-- C9 witness: the rejection clause applied to a session with an empty
recipient list and a small successful read. -/
theorem c9_first_recipient_only_witness :
    SMTPSession.Data ⟨"", "", [], ""⟩ ⟨"body", none⟩ none none =
      DataResult.rejected "no recipients specified" :=
  (c9_first_recipient_only ⟨"", "", [], ""⟩ ⟨"body", none⟩ none none).1 rfl rfl

/-! ## C10 -/

/-- C10: for every input, `sanitizeAppName` returns a non-empty string
of at most 20 characters drawn from `[a-z0-9-]`, and it is idempotent. -/
theorem c10_sanitize_invariants (s : String) :
    (sanitizeAppName s).length ≤ 20 ∧
    sanitizeAppName s ≠ "" ∧
    (sanitizeAppName s).toList.all isAppChar = true ∧
    sanitizeAppName (sanitizeAppName s) = sanitizeAppName s :=
  ⟨sanitize_len s, sanitize_ne s, sanitize_all s,
   sanitize_fixed _ (sanitize_ne s) (sanitize_all s) (sanitize_len s)⟩
